import Mathlib

/-!
Shallow embedding of the student records management backend
(`src/student_management_backend/src/api/main.py`).

The Python service keeps an in-memory insertion-ordered mapping
`students : Dict[str, StudentOut]` and exposes five operations:
list (with filtering and sorting), create, update, delete, get-by-id.
We model the dictionary as an association list kept in insertion order
(Python dicts preserve insertion order; assignment to an existing key
keeps its position), and each handler as a pure function from the store
to a response together with the successor store.
-/

deriving instance DecidableEq for Except

namespace StudentAPI

/-- Python `str.lower()`: lower-case every character. -/
def strLower (s : String) : String := ⟨s.data.map Char.toLower⟩

/-- Python `str.strip()`: drop leading and trailing whitespace. -/
def strTrim (s : String) : String :=
  ⟨((s.data.dropWhile Char.isWhitespace).reverse.dropWhile
      Char.isWhitespace).reverse⟩

/-- Request model `StudentIn` (pydantic): name, class/section, marks. -/
structure StudentIn where
  name : String
  student_class : String
  marks : Int
deriving DecidableEq, Repr

/-- Response model `StudentOut`: the request fields plus the unique id. -/
structure StudentOut where
  id : String
  name : String
  student_class : String
  marks : Int
deriving DecidableEq, Repr

/-- Validation enforced by pydantic before a handler runs: `name` and
`student_class` are stripped of surrounding whitespace and non-empty, the
raw lengths are bounded (1–100 and 1–20), and `marks` lies in [0, 100].
A model value that reached a handler satisfies this predicate. -/
def StudentIn.Valid (s : StudentIn) : Prop :=
  strTrim s.name = s.name ∧ s.name ≠ "" ∧ s.name.length ≤ 100 ∧
  strTrim s.student_class = s.student_class ∧ s.student_class ≠ "" ∧
  s.student_class.length ≤ 20 ∧
  0 ≤ s.marks ∧ s.marks ≤ 100

instance (s : StudentIn) : Decidable s.Valid := by
  unfold StudentIn.Valid; infer_instance

/-- Uniform response envelope `StatusResponse {success, message, data}`. -/
structure StatusResponse where
  success : Bool
  message : String
  data : Option StudentOut
deriving DecidableEq, Repr

/-- The in-memory store: id-keyed records in insertion order. -/
abbrev Store : Type := List (String × StudentOut)

/-- Building a `StudentOut` from an id and the request fields, as in
`StudentOut(id=student_id, **student.dict())`. -/
def StudentOut.ofIn (id : String) (s : StudentIn) : StudentOut :=
  ⟨id, s.name, s.student_class, s.marks⟩

/-- Duplicate test used by create/update:
`s.name.lower() == student.name.lower() and s.student_class.lower() == student.student_class.lower()`. -/
def conflictsWith (r : StudentOut) (student : StudentIn) : Bool :=
  strLower r.name == strLower student.name &&
    strLower r.student_class == strLower student.student_class

/-- Python dict membership `student_id in students`. -/
def hasKey (store : Store) (k : String) : Bool :=
  store.any (fun p => p.1 == k)

/-- Python dict lookup `students.get(student_id)`. -/
def dictGet (store : Store) (k : String) : Option StudentOut :=
  (store.find? (fun p => p.1 == k)).map Prod.snd

/-- Python dict assignment `students[k] = v`: replace in place when the key
exists, otherwise append at the end. -/
def dictInsert (store : Store) (k : String) (v : StudentOut) : Store :=
  if hasKey store k then
    store.map (fun p => if p.1 == k then (k, v) else p)
  else
    store ++ [(k, v)]

/-- Python dict removal `students.pop(k)` (store part). -/
def dictErase (store : Store) (k : String) : Store :=
  store.filter (fun p => p.1 != k)

/-- Handler `create_student`: reject a case-insensitive (name, class)
duplicate, otherwise insert under the freshly generated id. The generated
uuid is passed in as `newId`. -/
def create_student (store : Store) (newId : String) (student : StudentIn) :
    StatusResponse × Store :=
  if store.any (fun p => conflictsWith p.2 student) then
    (⟨false, "A student with this name and class already exists.", none⟩, store)
  else
    let student_out := StudentOut.ofIn newId student
    (⟨true, "Student created successfully.", some student_out⟩,
      dictInsert store newId student_out)

/-- Handler `update_student`: not-found on an absent id; otherwise reject a
case-insensitive (name, class) collision with any *other* record; otherwise
replace the record at `student_id` wholesale, keeping the id. -/
def update_student (store : Store) (student_id : String) (updated : StudentIn) :
    StatusResponse × Store :=
  if ¬ hasKey store student_id then
    (⟨false, "Student not found.", none⟩, store)
  else if store.any (fun p => p.1 != student_id && conflictsWith p.2 updated) then
    (⟨false, "A student with this name and class already exists.", none⟩, store)
  else
    let updated_student := StudentOut.ofIn student_id updated
    (⟨true, "Student updated successfully.", some updated_student⟩,
      dictInsert store student_id updated_student)

/-- Handler `delete_student`: not-found on an absent id, otherwise pop the
entry and return its last value. -/
def delete_student (store : Store) (student_id : String) :
    StatusResponse × Store :=
  match dictGet store student_id with
  | none => (⟨false, "Student not found.", none⟩, store)
  | some removed =>
      (⟨true, "Student deleted successfully.", some removed⟩,
        dictErase store student_id)

/-- Handler `get_student_by_id`. -/
def get_student_by_id (store : Store) (student_id : String) : StatusResponse :=
  match dictGet store student_id with
  | none => ⟨false, "Student not found.", none⟩
  | some student => ⟨true, "Student retrieved successfully.", some student⟩

/-- Filtering stage of `get_students`, applied in the code's order:
class (exact, case-sensitive), then `min_marks`, then `max_marks`. -/
def applyFilters (l : List StudentOut) (filter_class : Option String)
    (min_marks max_marks : Option Int) : List StudentOut :=
  let r1 := match filter_class with
    | some c => l.filter (fun s => s.student_class == c)
    | none => l
  let r2 := match min_marks with
    | some m => r1.filter (fun s => decide (m ≤ s.marks))
    | none => r1
  match max_marks with
  | some m => r2.filter (fun s => decide (s.marks ≤ m))
  | none => r2

/-- Python `result.sort(key=key, reverse=reverse)`: a stable sort by the
key; `reverse=True` reverses the comparison while keeping ties in their
original order, which a stable sort under the flipped comparison
reproduces. Modelled by the stable `List.insertionSort`, extensionally
equal to any stable sort under a total preorder. -/
def pySort {β : Type} [LinearOrder β] (key : StudentOut → β) (reverse : Bool)
    (l : List StudentOut) : List StudentOut :=
  if reverse then
    l.insertionSort (fun a b => key b ≤ key a)
  else
    l.insertionSort (fun a b => key a ≤ key b)

/-- Handler `get_students`: filter, then sort when `sort_by` is given.
The lowercased sort field must be one of `name`, `marks`,
`student_class`; anything else raises HTTP 400 "Invalid sort_by field",
modelled as `Except.error`. `order` defaults to `"asc"` at the HTTP layer. -/
def get_students (store : Store) (sort_by : Option String) (order : String)
    (filter_class : Option String) (min_marks max_marks : Option Int) :
    Except String (List StudentOut) :=
  let result := applyFilters (store.map Prod.snd) filter_class min_marks max_marks
  match sort_by with
  | none => .ok result
  | some sb =>
      let sort_attr := strLower sb
      let reverse := order == "desc"
      if sort_attr == "name" then
        .ok (pySort (fun s => (strLower s.name).data) reverse result)
      else if sort_attr == "marks" then
        .ok (pySort (fun s => s.marks) reverse result)
      else if sort_attr == "student_class" then
        .ok (pySort (fun s => (strLower s.student_class).data) reverse result)
      else
        .error "Invalid sort_by field"

/-- Case-insensitive (name, class) agreement between two stored records,
the propositional form of the duplicate test. -/
def SameNC (a b : StudentOut) : Prop :=
  strLower a.name = strLower b.name ∧
    strLower a.student_class = strLower b.student_class

instance (a b : StudentOut) : Decidable (SameNC a b) := by
  unfold SameNC; infer_instance

/-- Store states reachable from the empty store by the mutating handlers,
with created ids fresh (uuid4 collisions are assumed away, matching the
spec's "generated unique identifier") and handler inputs validated. -/
inductive Reachable : Store → Prop
  | empty : Reachable []
  | create {s : Store} {newId : String} {inp : StudentIn} :
      Reachable s → inp.Valid → hasKey s newId = false →
      Reachable (create_student s newId inp).2
  | update {s : Store} {id : String} {inp : StudentIn} :
      Reachable s → inp.Valid → Reachable (update_student s id inp).2
  | delete {s : Store} {id : String} :
      Reachable s → Reachable (delete_student s id).2

/-! ### Basic lemmas about the dictionary model -/

theorem SameNC.symm {a b : StudentOut} (h : SameNC a b) : SameNC b a :=
  ⟨h.1.symm, h.2.symm⟩

theorem conflictsWith_iff (r : StudentOut) (inp : StudentIn) (id : String) :
    conflictsWith r inp = true ↔ SameNC r (StudentOut.ofIn id inp) := by
  simp [conflictsWith, SameNC, StudentOut.ofIn]

theorem hasKey_eq_true_iff {s : Store} {k : String} :
    hasKey s k = true ↔ ∃ p ∈ s, p.1 = k := by
  simp [hasKey, List.any_eq_true]

theorem hasKey_eq_false_iff {s : Store} {k : String} :
    hasKey s k = false ↔ ∀ p ∈ s, p.1 ≠ k := by
  simp [hasKey, List.any_eq_false]

theorem dictGet_eq_none_iff {s : Store} {k : String} :
    dictGet s k = none ↔ ∀ p ∈ s, p.1 ≠ k := by
  simp [dictGet, List.find?_eq_none]

theorem dictGet_mem {s : Store} {k : String} {r : StudentOut}
    (h : dictGet s k = some r) : (k, r) ∈ s := by
  unfold dictGet at h
  cases hf : s.find? (fun p => p.1 == k) with
  | none => rw [hf] at h; simp at h
  | some p =>
      rw [hf] at h
      have h2 : p.2 = r := Option.some.inj h
      have hp : (p.1 == k) = true :=
        @List.find?_some _ (fun q => q.1 == k) p s hf
      have hm : p ∈ s := List.mem_of_find?_eq_some hf
      rw [beq_iff_eq] at hp
      obtain ⟨a, b⟩ := p
      dsimp only at hp h2
      rw [← hp, ← h2]
      exact hm

theorem dictGet_isSome_of_hasKey {s : Store} {k : String}
    (h : hasKey s k = true) : ∃ r, dictGet s k = some r := by
  rcases hasKey_eq_true_iff.mp h with ⟨p, hp, hk⟩
  cases hf : s.find? (fun p => p.1 == k) with
  | none =>
      rw [List.find?_eq_none] at hf
      exact absurd (by simpa using hk) (by simpa using hf p hp)
  | some q => exact ⟨q.2, by simp [dictGet, hf]⟩

theorem hasKey_of_dictGet {s : Store} {k : String} {r : StudentOut}
    (h : dictGet s k = some r) : hasKey s k = true :=
  hasKey_eq_true_iff.mpr ⟨(k, r), dictGet_mem h, rfl⟩

theorem find?_replace {s : Store} {k : String} (v : StudentOut)
    (h : hasKey s k = true) :
    (s.map (fun p => if p.1 == k then (k, v) else p)).find?
      (fun p => p.1 == k) = some (k, v) := by
  induction s with
  | nil => simp [hasKey] at h
  | cons p t ih =>
      by_cases hp : (p.1 == k) = true
      · simp only [List.map_cons, if_pos hp]
        exact List.find?_cons_of_pos _ (by simp)
      · have ht : hasKey t k = true := by
          simp [hasKey] at h ⊢
          rcases h with h | h
          · exact absurd (by simp [h]) hp
          · exact h
        simp only [List.map_cons, if_neg hp]
        rw [@List.find?_cons_of_neg _ (fun q => q.1 == k) p
          (t.map (fun p => if p.1 == k then (k, v) else p)) hp]
        exact ih ht

theorem dictGet_dictInsert_self (s : Store) (k : String) (v : StudentOut) :
    dictGet (dictInsert s k v) k = some v := by
  unfold dictInsert
  by_cases h : hasKey s k = true
  · rw [if_pos h]
    unfold dictGet
    rw [find?_replace v h]
    rfl
  · rw [if_neg h]
    have hn : s.find? (fun p => p.1 == k) = none := by
      rw [List.find?_eq_none]
      intro p hp
      simp only [beq_iff_eq]
      exact hasKey_eq_false_iff.mp (Bool.eq_false_iff.mpr h) p hp
    simp [dictGet, List.find?_append, hn]

theorem dictGet_dictInsert_ne (s : Store) {k k' : String} (v : StudentOut)
    (hne : k' ≠ k) : dictGet (dictInsert s k v) k' = dictGet s k' := by
  unfold dictInsert
  by_cases h : hasKey s k = true
  · rw [if_pos h]
    unfold dictGet
    rw [List.find?_map]
    have hcong :
        s.find? ((fun p => p.1 == k') ∘ fun p => if p.1 == k then (k, v) else p)
          = s.find? (fun p => p.1 == k') := by
      have hfun : ∀ p : String × StudentOut,
          ((fun p => p.1 == k') ∘ fun p => if p.1 == k then (k, v) else p) p
            = ((fun p : String × StudentOut => p.1 == k') p) := by
        intro p
        by_cases hp : (p.1 == k) = true
        · have hp' : p.1 = k := beq_iff_eq.mp hp
          simp only [Function.comp_apply, if_pos hp]
          rw [hp']
        · simp only [Function.comp_apply, if_neg hp]
      exact congrArg (fun pred => List.find? pred s) (funext hfun)
    rw [hcong]
    cases hf : s.find? (fun p => p.1 == k') with
    | none => simp
    | some p =>
        have hp : (p.1 == k') = true :=
          @List.find?_some _ (fun q => q.1 == k') p s hf
        rw [beq_iff_eq] at hp
        have hpk : p.1 ≠ k := by rw [hp]; exact hne
        simp [hpk]
  · rw [if_neg h]
    unfold dictGet
    rw [List.find?_append]
    have hnone : ([((k, v))] : Store).find? (fun p => p.1 == k') = none := by
      rw [List.find?_eq_none]
      intro x hx
      rw [List.mem_singleton] at hx
      subst hx
      simp only [beq_iff_eq]
      intro hc
      exact hne hc.symm
    rw [hnone]
    cases s.find? (fun p => p.1 == k') <;> simp

theorem dictGet_dictErase_self (s : Store) (k : String) :
    dictGet (dictErase s k) k = none := by
  rw [dictGet_eq_none_iff]
  intro p hp
  have := (List.mem_filter.mp hp).2
  simpa [bne_iff_ne] using this

/-! ### Well-formedness invariant of reachable stores -/

/-- Combined store invariant: keys are pairwise distinct, every record's
id field matches its key, and no two records agree case-insensitively
on (name, class). -/
def StoreWF (s : Store) : Prop :=
  (s.map Prod.fst).Nodup ∧ (∀ p ∈ s, p.2.id = p.1) ∧
    s.Pairwise (fun p q => ¬ SameNC p.2 q.2)

theorem storeWF_nil : StoreWF [] := by
  refine ⟨List.nodup_nil, ?_, List.Pairwise.nil⟩
  intro p hp; cases hp

theorem storeWF_create {s : Store} {newId : String} {inp : StudentIn}
    (hwf : StoreWF s) (hfresh : hasKey s newId = false) :
    StoreWF (create_student s newId inp).2 := by
  unfold create_student
  by_cases hdup : s.any (fun p => conflictsWith p.2 inp) = true
  · rw [if_pos hdup]
    exact hwf
  · rw [if_neg hdup]
    dsimp only
    rw [dictInsert, if_neg (by rw [hfresh]; simp)]
    have hfresh' : ∀ p ∈ s, p.1 ≠ newId := hasKey_eq_false_iff.mp hfresh
    have hdup' : ∀ p ∈ s, conflictsWith p.2 inp = false := by
      intro p hp
      have := List.any_eq_false.mp (Bool.eq_false_iff.mpr hdup) p hp
      exact Bool.eq_false_iff.mpr this
    refine ⟨?_, ?_, ?_⟩
    · rw [List.map_append, List.nodup_append]
      refine ⟨hwf.1, by simp, ?_⟩
      intro a ha hb
      simp only [List.map_cons, List.map_nil, List.mem_singleton] at hb
      subst hb
      rcases List.mem_map.mp ha with ⟨p, hp, hpa⟩
      exact hfresh' p hp hpa
    · intro p hp
      rcases List.mem_append.mp hp with hp | hp
      · exact hwf.2.1 p hp
      · rw [List.mem_singleton] at hp
        rw [hp]
        rfl
    · rw [List.pairwise_append]
      refine ⟨hwf.2.2, by simp, ?_⟩
      intro a ha b hb
      rw [List.mem_singleton] at hb
      subst hb
      intro hSame
      have hc : conflictsWith a.2 inp = true :=
        (conflictsWith_iff a.2 inp newId).mpr hSame
      rw [hdup' a ha] at hc
      exact Bool.false_ne_true hc

theorem storeWF_update {s : Store} {id : String} {inp : StudentIn}
    (hwf : StoreWF s) : StoreWF (update_student s id inp).2 := by
  unfold update_student
  by_cases hk : hasKey s id = true
  · rw [if_neg (not_not_intro hk)]
    by_cases hcol : s.any (fun p => p.1 != id && conflictsWith p.2 inp) = true
    · rw [if_pos hcol]
      exact hwf
    · rw [if_neg hcol]
      dsimp only
      rw [dictInsert, if_pos hk]
      have hnocol : ∀ p ∈ s, p.1 ≠ id → conflictsWith p.2 inp = false := by
        intro p hp hpne
        have h1 := List.any_eq_false.mp (Bool.eq_false_iff.mpr hcol) p hp
        have h2 : (p.1 != id) = true := bne_iff_ne.mpr hpne
        by_cases hc : conflictsWith p.2 inp = true
        · exact absurd (by rw [h2, hc]; rfl) h1
        · exact Bool.eq_false_iff.mpr hc
      have hkeys : ((s.map fun p =>
          if p.1 == id then (id, StudentOut.ofIn id inp) else p).map Prod.fst)
            = s.map Prod.fst := by
        rw [List.map_map]
        apply List.map_congr_left
        intro p hp
        by_cases hpid : (p.1 == id) = true
        · simp only [Function.comp_apply, if_pos hpid]
          exact (beq_iff_eq.mp hpid).symm
        · simp only [Function.comp_apply, if_neg hpid]
      refine ⟨by rw [hkeys]; exact hwf.1, ?_, ?_⟩
      · intro q hq
        rcases List.mem_map.mp hq with ⟨p, hp, hfp⟩
        by_cases hpid : (p.1 == id) = true
        · rw [if_pos hpid] at hfp
          rw [← hfp]
          rfl
        · rw [if_neg hpid] at hfp
          rw [← hfp]
          exact hwf.2.1 p hp
      · have hne : s.Pairwise (fun a b => a.1 ≠ b.1) :=
          List.pairwise_map.mp hwf.1
        have hcomb := hwf.2.2.and hne
        rw [List.pairwise_map]
        apply List.Pairwise.imp_of_mem ?_ hcomb
        intro a b ha hb hab
        rcases hab with ⟨hRab, hne_ab⟩
        by_cases hA : (a.1 == id) = true
        · by_cases hB : (b.1 == id) = true
          · exact absurd ((beq_iff_eq.mp hA).trans (beq_iff_eq.mp hB).symm)
              hne_ab
          · rw [if_pos hA, if_neg hB]
            intro hSame
            have hc : conflictsWith b.2 inp = true :=
              (conflictsWith_iff b.2 inp id).mpr hSame.symm
            rw [hnocol b hb (by simpa using hB)] at hc
            exact Bool.false_ne_true hc
        · by_cases hB : (b.1 == id) = true
          · rw [if_neg hA, if_pos hB]
            intro hSame
            have hc : conflictsWith a.2 inp = true :=
              (conflictsWith_iff a.2 inp id).mpr hSame
            rw [hnocol a ha (by simpa using hA)] at hc
            exact Bool.false_ne_true hc
          · rw [if_neg hA, if_neg hB]
            exact hRab
  · rw [if_pos hk]
    exact hwf

theorem storeWF_delete {s : Store} {id : String}
    (hwf : StoreWF s) : StoreWF (delete_student s id).2 := by
  unfold delete_student
  cases hg : dictGet s id with
  | none => exact hwf
  | some r =>
      dsimp only
      have hsub : (dictErase s id).Sublist s := List.filter_sublist s
      refine ⟨List.Nodup.sublist (List.Sublist.map Prod.fst hsub) hwf.1,
        ?_, List.Pairwise.sublist hsub hwf.2.2⟩
      intro p hp
      exact hwf.2.1 p (hsub.subset hp)

theorem reachable_wf {s : Store} (h : Reachable s) : StoreWF s := by
  induction h with
  | empty => exact storeWF_nil
  | create _ hv hfresh ih => exact storeWF_create ih hfresh
  | update _ hv ih => exact storeWF_update ih
  | delete _ ih => exact storeWF_delete ih

/-! ### Lemmas about filtering and sorting in the list endpoint -/

theorem pySort_sorted_asc {β : Type} [LinearOrder β] (key : StudentOut → β)
    (l : List StudentOut) :
    (pySort key false l).Pairwise (fun a b => key a ≤ key b) := by
  unfold pySort
  rw [if_neg (by simp)]
  haveI ht : IsTotal StudentOut (fun a b => key a ≤ key b) :=
    ⟨fun a b => le_total (key a) (key b)⟩
  haveI htr : IsTrans StudentOut (fun a b => key a ≤ key b) :=
    ⟨fun a b c hab hbc => le_trans hab hbc⟩
  exact List.sorted_insertionSort _ l

theorem pySort_sorted_desc {β : Type} [LinearOrder β] (key : StudentOut → β)
    (l : List StudentOut) :
    (pySort key true l).Pairwise (fun a b => key b ≤ key a) := by
  unfold pySort
  rw [if_pos rfl]
  haveI ht : IsTotal StudentOut (fun a b => key b ≤ key a) :=
    ⟨fun a b => le_total (key b) (key a)⟩
  haveI htr : IsTrans StudentOut (fun a b => key b ≤ key a) :=
    ⟨fun a b c hab hbc => le_trans hbc hab⟩
  exact List.sorted_insertionSort _ l

theorem get_students_no_sort (s : Store) (order : String)
    (fc : Option String) (mn mx : Option Int) :
    get_students s none order fc mn mx =
      .ok (applyFilters (s.map Prod.snd) fc mn mx) := rfl

theorem get_students_sort_name (s : Store) (order : String)
    (fc : Option String) (mn mx : Option Int) :
    get_students s (some "name") order fc mn mx =
      .ok (pySort (fun r => (strLower r.name).data) (order == "desc")
        (applyFilters (s.map Prod.snd) fc mn mx)) := rfl

theorem get_students_sort_marks (s : Store) (order : String)
    (fc : Option String) (mn mx : Option Int) :
    get_students s (some "marks") order fc mn mx =
      .ok (pySort (fun r => r.marks) (order == "desc")
        (applyFilters (s.map Prod.snd) fc mn mx)) := rfl

theorem get_students_sort_class (s : Store) (order : String)
    (fc : Option String) (mn mx : Option Int) :
    get_students s (some "student_class") order fc mn mx =
      .ok (pySort (fun r => (strLower r.student_class).data) (order == "desc")
        (applyFilters (s.map Prod.snd) fc mn mx)) := rfl

theorem mem_applyFilters {l : List StudentOut} {fc : Option String}
    {mn mx : Option Int} {r : StudentOut} :
    r ∈ applyFilters l fc mn mx ↔ r ∈ l ∧
      (∀ c, fc = some c → r.student_class = c) ∧
      (∀ m, mn = some m → m ≤ r.marks) ∧
      (∀ m, mx = some m → r.marks ≤ m) := by
  unfold applyFilters
  cases fc <;> cases mn <;> cases mx <;>
    simp [List.mem_filter, and_assoc] <;> tauto

/-! ### Sample data for concrete instantiations -/

def annIn : StudentIn := ⟨"Ann Lee", "10A", 88⟩

def bobIn : StudentIn := ⟨"Bob", "9B", 70⟩

def cidIn : StudentIn := ⟨"Cid", "10A", 95⟩

def danIn : StudentIn := ⟨"Dan", "11C", 50⟩

def sampleStore : Store :=
  [("i1", StudentOut.ofIn "i1" annIn), ("i2", StudentOut.ofIn "i2" bobIn),
   ("i3", StudentOut.ofIn "i3" cidIn)]

/-! ### The claims -/

/-- Claim C1. The specification and the handler's own parameter
documentation state the sortable fields are `name`, `marks` and `class`,
but the code compares the lowercased `sort_by` against
`{"name", "marks", "student_class"}`: a List call with `sort_by=class`
(any casing) is rejected with the InvalidArgument error, while the
undocumented value `student_class` is accepted and sorts. Evaluation of
the embedded handler at the failing input. -/
theorem claim_sort_field_mismatch :
    get_students sampleStore (some "class") "asc" none none none =
      .error "Invalid sort_by field" ∧
    get_students sampleStore (some "CLASS") "asc" none none none =
      .error "Invalid sort_by field" ∧
    get_students sampleStore (some "student_class") "asc" none none none =
      .ok [StudentOut.ofIn "i1" annIn, StudentOut.ofIn "i3" cidIn,
        StudentOut.ofIn "i2" bobIn] := by
  refine ⟨by decide, by decide, by decide⟩

/-- Claim C2: in every store state reachable from the empty store by
Create, Update and Delete, no two live records simultaneously hold the
same (name, class) pair under case-insensitive comparison. -/
theorem claim_unique_name_class (s : Store) (h : Reachable s) :
    s.Pairwise (fun p q => ¬ SameNC p.2 q.2) :=
  (reachable_wf h).2.2

/-- Witness for C2 at a concrete reachable two-record store. -/
theorem claim_unique_name_class_witness :
    ((create_student [("i1", StudentOut.ofIn "i1" annIn)] "i2" bobIn).2).Pairwise
      (fun p q => ¬ SameNC p.2 q.2) := by
  have h0 : Reachable ([] : Store) := Reachable.empty
  have h1 := Reachable.create h0 (show annIn.Valid by decide)
    (show hasKey ([] : Store) "i1" = false from rfl)
  have h2 := Reachable.create h1 (show bobIn.Valid by decide)
    (show hasKey (create_student ([] : Store) "i1" annIn).2 "i2" = false
      from rfl)
  exact claim_unique_name_class _ h2

/-- Claim C3: Create on a valid input whose (name, class) pair is not
already present case-insensitively succeeds carrying the created record,
and GetByID on the returned id yields exactly the input fields plus the
generated id. -/
theorem claim_create_then_get (s : Store) (newId : String) (inp : StudentIn)
    (_hval : inp.Valid)
    (hdup : ∀ p ∈ s, ¬ SameNC p.2 (StudentOut.ofIn newId inp)) :
    (create_student s newId inp).1 =
      ⟨true, "Student created successfully.",
        some (StudentOut.ofIn newId inp)⟩ ∧
    get_student_by_id (create_student s newId inp).2 newId =
      ⟨true, "Student retrieved successfully.",
        some (StudentOut.ofIn newId inp)⟩ := by
  have hany : s.any (fun p => conflictsWith p.2 inp) = false := by
    rw [List.any_eq_false]
    intro p hp hc
    exact hdup p hp ((conflictsWith_iff p.2 inp newId).mp hc)
  unfold create_student
  rw [if_neg (Bool.eq_false_iff.mp hany)]
  dsimp only
  refine ⟨rfl, ?_⟩
  unfold get_student_by_id
  rw [dictGet_dictInsert_self]

/-- Witness for C3: creating a fresh student in the sample store. -/
theorem claim_create_then_get_witness :
    (create_student sampleStore "i4" danIn).1 =
      ⟨true, "Student created successfully.",
        some (StudentOut.ofIn "i4" danIn)⟩ ∧
    get_student_by_id (create_student sampleStore "i4" danIn).2 "i4" =
      ⟨true, "Student retrieved successfully.",
        some (StudentOut.ofIn "i4" danIn)⟩ :=
  claim_create_then_get sampleStore "i4" danIn (by decide) (by decide)

/-- Claim C4: Create whose (name, class) pair is already present
case-insensitively fails with an explanatory message, inserts nothing,
and leaves the collection's contents and size unchanged. -/
theorem claim_create_duplicate (s : Store) (newId : String) (inp : StudentIn)
    (hdup : ∃ p ∈ s, SameNC p.2 (StudentOut.ofIn newId inp)) :
    (create_student s newId inp).1.success = false ∧
    (create_student s newId inp).1.message =
      "A student with this name and class already exists." ∧
    (create_student s newId inp).1.data = none ∧
    (create_student s newId inp).2 = s ∧
    ((create_student s newId inp).2).length = s.length := by
  have hany : s.any (fun p => conflictsWith p.2 inp) = true := by
    rw [List.any_eq_true]
    rcases hdup with ⟨p, hp, hs⟩
    exact ⟨p, hp, (conflictsWith_iff p.2 inp newId).mpr hs⟩
  unfold create_student
  rw [if_pos hany]
  exact ⟨rfl, rfl, rfl, rfl, rfl⟩

/-- Witness for C4: re-creating Ann Lee with different casing. -/
theorem claim_create_duplicate_witness :
    (create_student sampleStore "i9" ⟨"ANN LEE", "10a", 92⟩).1.success
        = false ∧
    (create_student sampleStore "i9" ⟨"ANN LEE", "10a", 92⟩).1.message =
      "A student with this name and class already exists." ∧
    (create_student sampleStore "i9" ⟨"ANN LEE", "10a", 92⟩).1.data = none ∧
    (create_student sampleStore "i9" ⟨"ANN LEE", "10a", 92⟩).2 =
      sampleStore ∧
    ((create_student sampleStore "i9" ⟨"ANN LEE", "10a", 92⟩).2).length =
      sampleStore.length :=
  claim_create_duplicate sampleStore "i9" ⟨"ANN LEE", "10a", 92⟩ (by decide)

/-- Claim C5: Update on a present id with valid fields replaces the whole
record in place (identifier unchanged) and succeeds carrying the updated
record when no other record collides case-insensitively on (name, class);
when some other record collides, it fails without mutating the store. -/
theorem claim_update_present (s : Store) (id : String) (inp : StudentIn)
    (_hval : inp.Valid) (hpresent : ∃ p ∈ s, p.1 = id) :
    ((∀ p ∈ s, p.1 ≠ id → ¬ SameNC p.2 (StudentOut.ofIn id inp)) →
      (update_student s id inp).1 =
        ⟨true, "Student updated successfully.",
          some (StudentOut.ofIn id inp)⟩ ∧
      (update_student s id inp).2 =
        s.map (fun p => if p.1 == id then (id, StudentOut.ofIn id inp)
          else p) ∧
      dictGet (update_student s id inp).2 id =
        some (StudentOut.ofIn id inp)) ∧
    ((∃ p ∈ s, p.1 ≠ id ∧ SameNC p.2 (StudentOut.ofIn id inp)) →
      (update_student s id inp).1 =
        ⟨false, "A student with this name and class already exists.",
          none⟩ ∧
      (update_student s id inp).2 = s) := by
  have hk : hasKey s id = true := hasKey_eq_true_iff.mpr hpresent
  constructor
  · intro hnc
    have hany : s.any (fun p => p.1 != id && conflictsWith p.2 inp)
        = false := by
      rw [List.any_eq_false]
      intro p hp hc
      rw [Bool.and_eq_true] at hc
      exact hnc p hp (bne_iff_ne.mp hc.1)
        ((conflictsWith_iff p.2 inp id).mp hc.2)
    unfold update_student
    rw [if_neg (not_not_intro hk), if_neg (Bool.eq_false_iff.mp hany)]
    dsimp only
    refine ⟨rfl, ?_, ?_⟩
    · rw [dictInsert, if_pos hk]
    · exact dictGet_dictInsert_self s id _
  · intro hcol
    have hany : s.any (fun p => p.1 != id && conflictsWith p.2 inp)
        = true := by
      rw [List.any_eq_true]
      rcases hcol with ⟨p, hp, hne, hs⟩
      refine ⟨p, hp, ?_⟩
      rw [bne_iff_ne.mpr hne, (conflictsWith_iff p.2 inp id).mpr hs]
      rfl
    unfold update_student
    rw [if_neg (not_not_intro hk), if_pos hany]
    exact ⟨rfl, rfl⟩

/-- Witness for C5: a collision-free update succeeds; an update colliding
with another record fails. -/
theorem claim_update_present_witness :
    (update_student sampleStore "i1" ⟨"Ann Lee", "10A", 92⟩).1 =
      ⟨true, "Student updated successfully.",
        some (StudentOut.ofIn "i1" ⟨"Ann Lee", "10A", 92⟩)⟩ ∧
    (update_student sampleStore "i3" ⟨"BOB", "9b", 1⟩).1 =
      ⟨false, "A student with this name and class already exists.",
        none⟩ :=
  ⟨((claim_update_present sampleStore "i1" ⟨"Ann Lee", "10A", 92⟩
      (by decide) (by decide)).1 (by decide)).1,
   ((claim_update_present sampleStore "i3" ⟨"BOB", "9b", 1⟩
      (by decide) (by decide)).2 (by decide)).1⟩

/-- Claim C6: Update on an absent id fails with the not-found message and
leaves the collection unchanged. -/
theorem claim_update_not_found (s : Store) (id : String) (inp : StudentIn)
    (h : ∀ p ∈ s, p.1 ≠ id) :
    update_student s id inp = (⟨false, "Student not found.", none⟩, s) := by
  have hk : hasKey s id = false := hasKey_eq_false_iff.mpr h
  unfold update_student
  rw [if_pos (by rw [hk]; exact Bool.false_ne_true)]

/-- Witness for C6: updating a nonexistent id in the sample store. -/
theorem claim_update_not_found_witness :
    update_student sampleStore "zz" danIn =
      (⟨false, "Student not found.", none⟩, sampleStore) :=
  claim_update_not_found sampleStore "zz" danIn (by decide)

/-- Claim C7: Delete on an absent id fails with not-found and no mutation;
Delete on a present id removes the entry, succeeds carrying the removed
record's last values, and a subsequent GetByID on the same id yields the
not-found failure outcome. -/
theorem claim_delete_then_get (s : Store) (id : String) :
    ((∀ p ∈ s, p.1 ≠ id) →
      delete_student s id = (⟨false, "Student not found.", none⟩, s)) ∧
    (∀ r, dictGet s id = some r →
      (delete_student s id).1 =
        ⟨true, "Student deleted successfully.", some r⟩ ∧
      (delete_student s id).2 = dictErase s id ∧
      get_student_by_id (delete_student s id).2 id =
        ⟨false, "Student not found.", none⟩) := by
  constructor
  · intro h
    have hg : dictGet s id = none := dictGet_eq_none_iff.mpr h
    unfold delete_student
    rw [hg]
  · intro r hg
    unfold delete_student
    rw [hg]
    dsimp only
    refine ⟨rfl, rfl, ?_⟩
    unfold get_student_by_id
    rw [dictGet_dictErase_self]

/-- Witness for C7: both branches on the sample store. -/
theorem claim_delete_then_get_witness :
    delete_student sampleStore "zz" =
      (⟨false, "Student not found.", none⟩, sampleStore) ∧
    get_student_by_id (delete_student sampleStore "i1").2 "i1" =
      ⟨false, "Student not found.", none⟩ :=
  ⟨(claim_delete_then_get sampleStore "zz").1 (by decide),
   ((claim_delete_then_get sampleStore "i1").2 (StudentOut.ofIn "i1" annIn)
      (by decide)).2.2⟩

/-- Claim C8: List applies the optional filters conjunctively starting
from all records — class by exact case-sensitive equality, `min_marks` as
a lower bound, `max_marks` as an upper bound — and returns the empty
sequence when no record matches. -/
theorem claim_list_filters (s : Store) (order : String) (fc : Option String)
    (mn mx : Option Int) :
    ∃ l, get_students s none order fc mn mx = .ok l ∧
      (∀ r, r ∈ l ↔ r ∈ s.map Prod.snd ∧
        (∀ c, fc = some c → r.student_class = c) ∧
        (∀ m, mn = some m → m ≤ r.marks) ∧
        (∀ m, mx = some m → r.marks ≤ m)) ∧
      ((∀ r ∈ s.map Prod.snd,
          ¬((∀ c, fc = some c → r.student_class = c) ∧
            (∀ m, mn = some m → m ≤ r.marks) ∧
            (∀ m, mx = some m → r.marks ≤ m))) → l = []) := by
  refine ⟨applyFilters (s.map Prod.snd) fc mn mx,
    get_students_no_sort s order fc mn mx, ?_, ?_⟩
  · intro r
    exact mem_applyFilters
  · intro h
    rw [List.eq_nil_iff_forall_not_mem]
    intro r hr
    rcases mem_applyFilters.mp hr with ⟨hmem, hp⟩
    exact h r hmem hp

/-- Witness for C8 at a concrete store and filter combination. -/
theorem claim_list_filters_witness :
    ∃ l, get_students sampleStore none "asc" (some "10A") (some 90) none
        = .ok l ∧
      (∀ r, r ∈ l ↔ r ∈ sampleStore.map Prod.snd ∧
        (∀ c, (some "10A" : Option String) = some c →
          r.student_class = c) ∧
        (∀ m, (some 90 : Option Int) = some m → m ≤ r.marks) ∧
        (∀ m, (none : Option Int) = some m → r.marks ≤ m)) ∧
      ((∀ r ∈ sampleStore.map Prod.snd,
          ¬((∀ c, (some "10A" : Option String) = some c →
              r.student_class = c) ∧
            (∀ m, (some 90 : Option Int) = some m → m ≤ r.marks) ∧
            (∀ m, (none : Option Int) = some m → r.marks ≤ m))) →
        l = []) :=
  claim_list_filters sampleStore "asc" (some "10A") (some 90) none

/-- Claim C9: List with `sort_by=marks` and `order=desc` returns the
filtered records in non-increasing marks order; with a recognized sort
field and any order other than `desc`, sorting is ascending, name and
class keys being compared case-insensitively (lower-cased) and marks
numerically. -/
theorem claim_list_sorting (s : Store) (order : String) (fc : Option String)
    (mn mx : Option Int) :
    (∀ l, get_students s (some "marks") "desc" fc mn mx = .ok l →
      l.Pairwise (fun a b => b.marks ≤ a.marks)) ∧
    (order ≠ "desc" →
      (∀ l, get_students s (some "marks") order fc mn mx = .ok l →
        l.Pairwise (fun a b => a.marks ≤ b.marks)) ∧
      (∀ l, get_students s (some "name") order fc mn mx = .ok l →
        l.Pairwise (fun a b =>
          (strLower a.name).data ≤ (strLower b.name).data)) ∧
      (∀ l, get_students s (some "student_class") order fc mn mx = .ok l →
        l.Pairwise (fun a b =>
          (strLower a.student_class).data ≤
            (strLower b.student_class).data))) := by
  constructor
  · intro l hl
    rw [get_students_sort_marks,
      show (("desc" : String) == "desc") = true from rfl] at hl
    have hs := pySort_sorted_desc (fun r => r.marks)
      (applyFilters (s.map Prod.snd) fc mn mx)
    rw [Except.ok.inj hl] at hs
    exact hs
  · intro hord
    have hfalse : (order == "desc") = false := beq_eq_false_iff_ne.mpr hord
    refine ⟨?_, ?_, ?_⟩
    · intro l hl
      rw [get_students_sort_marks, hfalse] at hl
      have hs := pySort_sorted_asc (fun r => r.marks)
        (applyFilters (s.map Prod.snd) fc mn mx)
      rw [Except.ok.inj hl] at hs
      exact hs
    · intro l hl
      rw [get_students_sort_name, hfalse] at hl
      have hs := pySort_sorted_asc (fun r => (strLower r.name).data)
        (applyFilters (s.map Prod.snd) fc mn mx)
      rw [Except.ok.inj hl] at hs
      exact hs
    · intro l hl
      rw [get_students_sort_class, hfalse] at hl
      have hs := pySort_sorted_asc
        (fun r => (strLower r.student_class).data)
        (applyFilters (s.map Prod.snd) fc mn mx)
      rw [Except.ok.inj hl] at hs
      exact hs

/-- Witness for C9: the sample store sorted by marks descending and by
name ascending. -/
theorem claim_list_sorting_witness :
    ([StudentOut.ofIn "i3" cidIn, StudentOut.ofIn "i1" annIn,
      StudentOut.ofIn "i2" bobIn].Pairwise
        (fun a b => b.marks ≤ a.marks)) ∧
    ([StudentOut.ofIn "i1" annIn, StudentOut.ofIn "i2" bobIn,
      StudentOut.ofIn "i3" cidIn].Pairwise
        (fun a b => (strLower a.name).data ≤ (strLower b.name).data)) :=
  ⟨(claim_list_sorting sampleStore "asc" none none none).1 _ (by decide),
   ((claim_list_sorting sampleStore "asc" none none none).2
      (by decide)).2.1 _ (by decide)⟩

/-- Claim C10: in every reachable store every record's id field equals the
key it is stored under, and Update never changes the id field of the
record at the given key. -/
theorem claim_id_matches_key (s : Store) (h : Reachable s) :
    (∀ p ∈ s, p.2.id = p.1) ∧
    (∀ id inp r r', dictGet s id = some r →
      dictGet (update_student s id inp).2 id = some r' → r'.id = r.id) := by
  refine ⟨(reachable_wf h).2.1, ?_⟩
  intro id inp r r' hr hr'
  have h1 : r.id = id := (reachable_wf h).2.1 (id, r) (dictGet_mem hr)
  have hk : hasKey s id = true := hasKey_of_dictGet hr
  unfold update_student at hr'
  rw [if_neg (not_not_intro hk)] at hr'
  by_cases hcol : s.any (fun p => p.1 != id && conflictsWith p.2 inp) = true
  · rw [if_pos hcol] at hr'
    dsimp only at hr'
    rw [hr] at hr'
    rw [← Option.some.inj hr']
  · rw [if_neg hcol] at hr'
    dsimp only at hr'
    rw [dictGet_dictInsert_self] at hr'
    rw [← Option.some.inj hr', h1]
    rfl

/-- Witness for C10 at a concrete reachable one-record store. -/
theorem claim_id_matches_key_witness :
    (∀ p ∈ ([("i1", StudentOut.ofIn "i1" annIn)] : Store), p.2.id = p.1) ∧
    (∀ id inp r r',
      dictGet ([("i1", StudentOut.ofIn "i1" annIn)] : Store) id = some r →
      dictGet (update_student
        ([("i1", StudentOut.ofIn "i1" annIn)] : Store) id inp).2 id
          = some r' → r'.id = r.id) := by
  have h0 : Reachable ([] : Store) := Reachable.empty
  have h1 := Reachable.create h0 (show annIn.Valid by decide)
    (show hasKey ([] : Store) "i1" = false from rfl)
  exact claim_id_matches_key _ h1

end StudentAPI
